import Mathlib

/-!
Verification of the Ray Serve stable-diffusion serving template
(doc/source/templates/tests/03_serving_stable_diffusion, present in this
repository as a notebook) against its natural-language specification.

The notebook defines:
* `StableDiffusionV2` — a Ray Serve deployment (the Worker Replica) whose
  `generate(prompt, img_size=776)` asserts the prompt is non-empty and runs
  the diffusion pipeline with `height=img_size, width=img_size`;
* `APIIngress` — the FastAPI ingress whose `generate(prompt, img_size=776)`
  asserts the prompt is non-empty, awaits
  `self.handle.generate.remote(prompt, img_size=img_size)`, PNG-encodes the
  returned image and answers with media type `image/png`;
* `generate_image` — a Ray remote task issuing one HTTP GET to `/imagine`;
* `main` — the fan-out client: it records `start = time.time()`, issues
  `NUM_IMAGES_PER_PROMPT` remote tasks at once, gathers them with
  `ray.get`, writes each returned byte string to a file, and only then
  computes `elapsed = time.time() - start` and appends it to
  `generation_times`.

The replica pool / dispatcher that routes requests to the
`StableDiffusionV2` replicas is part of Ray Serve itself, which belongs to
this repository but is not among the provided source files; it is modelled
from the specification (sections 3, 4.2 and 7) as an explicit transition
system.
-/

/-- An image as produced by the diffusion pipeline: the notebook only ever
observes its dimensions and its PNG serialization, so the model records the
prompt it was generated from and its height and width. -/
structure Image where
  height : Nat
  width : Nat
  promptUsed : String
  deriving Repr, DecidableEq

/-- Modelled from the spec: the external diffusion pipeline call
`self.pipe(prompt, height=img_size, width=img_size).images[0]`
(the `diffusers` library, outside this repository). The call returns one
image of exactly the requested height and width. -/
def pipeRun (prompt : String) (height width : Nat) : Image :=
  { height := height, width := width, promptUsed := prompt }

/-- Modelled from the spec: `image.save(file_stream, "PNG")` (the PIL PNG
encoder, outside this repository). A concrete injective stand-in for the
binary PNG serialization of an image. -/
def pngEncode (img : Image) : List Nat :=
  img.height :: img.width :: (img.promptUsed.toList.map Char.toNat)

/-- Errors raised by the notebook code. `assertionError` embeds a failed
Python `assert`; `shutdownError` is the spec's pool-shutting-down failure. -/
inductive ServeError where
  | assertionError (msg : String)
  | shutdownError
  deriving Repr, DecidableEq

/-- Error taxonomy of spec section 7: a failed input-validation assertion is
a ValidationError, which is a client fault; a shutdown error is not. -/
def ServeError.isClientFault : ServeError → Bool
  | .assertionError _ => true
  | .shutdownError => false

/-- Embeds `StableDiffusionV2.generate(self, prompt, img_size=776)`:
`assert len(prompt), "prompt parameter cannot be empty"` and then
`self.pipe(prompt, height=img_size, width=img_size).images[0]`. A raised
assertion is embedded as `Except.error`. -/
def StableDiffusionV2.generate (prompt : String) (img_size : Nat := 776) :
    Except ServeError Image :=
  if prompt.length = 0 then
    .error (.assertionError "prompt parameter cannot be empty")
  else
    .ok (pipeRun prompt img_size img_size)

/-- The HTTP response constructed by the ingress:
`Response(content=file_stream.getvalue(), media_type="image/png")`. -/
structure HttpResponse where
  content : List Nat
  media_type : String
  deriving Repr, DecidableEq

/-- One invocation of the replica handle, as performed by
`self.handle.generate.remote(prompt, img_size=img_size)`. -/
structure ReplicaCall where
  prompt : String
  img_size : Nat
  deriving Repr, DecidableEq

/-- Embeds `APIIngress.generate(self, prompt, img_size=776)`:
`assert len(prompt)` fires before the replica handle is touched; otherwise
the handle is awaited once, the image is PNG-encoded and returned with
media type `image/png`. The second component records every invocation of
the replica handle made while serving the call, so that claims about the
replica never being touched are stated directly. -/
def APIIngress.generate (handle : String → Nat → Except ServeError Image)
    (prompt : String) (img_size : Nat := 776) :
    Except ServeError HttpResponse × List ReplicaCall :=
  if prompt.length = 0 then
    (.error (.assertionError "prompt parameter cannot be empty"), [])
  else
    match handle prompt img_size with
    | .error e => (.error e, [⟨prompt, img_size⟩])
    | .ok image => (.ok ⟨pngEncode image, "image/png"⟩, [⟨prompt, img_size⟩])

/-- The replica handle that `APIIngress.bind(StableDiffusionV2.bind())`
injects into the ingress: calling it runs `StableDiffusionV2.generate`. -/
def sdHandle : String → Nat → Except ServeError Image :=
  fun prompt img_size => StableDiffusionV2.generate prompt img_size

/-- The notebook constant controlling the requested output size:
`IMAGE_SIZE: int = 776`. -/
def IMAGE_SIZE : Nat := 776

/-- The query parameters of one HTTP GET to the `/imagine` endpoint:
`req = {"prompt": prompt, "img_size": IMAGE_SIZE}`. -/
structure HttpRequest where
  prompt : String
  img_size : Nat
  deriving Repr, DecidableEq

/-- Embeds the body of the remote task `generate_image(prompt)`: it issues
one GET to the endpoint with parameters `prompt` and `IMAGE_SIZE` and
returns `resp.content`. The `endpoint` argument abstracts the HTTP server
reached by `requests.get`. -/
def generate_image (endpoint : HttpRequest → HttpResponse)
    (r : HttpRequest) : List Nat :=
  (endpoint r).content

/-- The remote task handles created by the list comprehension
`[generate_image.remote(prompt) for _ in range(count)]` in `main`: all
`count` handles — one HTTP request each, every one carrying the same prompt
and `IMAGE_SIZE` — are created before `ray.get` is entered. -/
def fanOutRequests (prompt : String) (count : Nat) : List HttpRequest :=
  (List.range count).map (fun _ => ⟨prompt, IMAGE_SIZE⟩)

/-- Embeds `images = ray.get([generate_image.remote(prompt) for _ in
range(count)])`. Modelled from the spec for the part outside the provided
sources (Ray core's `ray.get`): it waits for every task in the handle list
and returns their results in the order of that list. -/
def fanOut (endpoint : HttpRequest → HttpResponse)
    (prompt : String) (count : Nat) : List (List Nat) :=
  (fanOutRequests prompt count).map (generate_image endpoint)

/-- Durations, against a logical clock, of the two phases of one batch of
the client loop in `main`: `issueAndWait` covers issuing the remote tasks
and blocking in `ray.get` (when it ends, the last result has been
retrieved); `write` covers `os.makedirs` and the loop writing each image
file, which run after `ray.get` returns. -/
structure BatchTimes where
  issueAndWait : Nat
  write : Nat
  deriving Repr, DecidableEq

/-- Observable timing trace of one batch of the client loop. -/
structure BatchTrace where
  startClock : Nat
  lastResultClock : Nat
  endClock : Nat
  elapsed : Nat
  deriving Repr, DecidableEq

/-- Embeds the timed statements of one iteration of the loop in `main`, in
their source order: `start = time.time()`; then
`images = ray.get([...])`; then `os.makedirs(dirname)` and the loop writing
`i.png` files; then `elapsed = time.time() - start` and
`generation_times.append(elapsed)`. `time.time()` is modelled as reading
the logical clock, which each phase advances by its duration. Returns the
trace of the batch and the updated `generation_times` list. -/
def runBatch (clock : Nat) (t : BatchTimes) (generation_times : List Nat) :
    BatchTrace × List Nat :=
  let start := clock
  let afterGet := start + t.issueAndWait
  let afterWrite := afterGet + t.write
  let elapsed := afterWrite - start
  ({ startClock := start, lastResultClock := afterGet,
     endClock := afterWrite, elapsed := elapsed },
   generation_times ++ [elapsed])

/-- Modelled from the spec: the state of the Ray Serve replica pool /
dispatcher (Ray Serve's router, part of this repository but not among the
provided source files; spec sections 3 and 4.2). `poolSize` is the fixed
replica count (`NUM_REPLICAS`); `processing` holds the ids of WorkRequests
currently in flight on some replica; `pending` is the FIFO queue of
accepted but not yet dispatched ids; `accepted` records, in submission
order, every id accepted before shutdown; `delivered` records each
WorkResult handed back to its caller as the pair of its request id and its
status (`true` for Success); `shuttingDown` is set once shutdown begins. -/
structure PoolState where
  poolSize : Nat
  processing : List Nat
  pending : List Nat
  accepted : List Nat
  delivered : List (Nat × Bool)
  shuttingDown : Bool
  deriving Repr, DecidableEq

/-- The pool as created at start-up: all replicas idle, nothing queued. -/
def PoolState.init (n : Nat) : PoolState :=
  { poolSize := n, processing := [], pending := [], accepted := [],
    delivered := [], shuttingDown := false }

/-- Modelled from the spec: the events the dispatcher reacts to.
`submit id` is a caller submitting the WorkRequest with that id;
`complete id ok` is the replica processing `id` finishing, with Success
when `ok` and Failure otherwise (spec section 4.2: a Failure marks the
replica idle again and delivers the Failure result; the replica stays in
the pool); `shutdown` begins pool shutdown. -/
inductive PoolEvent where
  | submit (id : Nat)
  | complete (id : Nat) (ok : Bool)
  | shutdown
  deriving Repr, DecidableEq

/-- Modelled from the spec: one dispatcher transition.
Submission while shutting down is refused synchronously (the request is
never accepted or queued), so it leaves the pool state unchanged. An
accepted submission goes straight to a replica when one is idle
(fewer than `poolSize` requests in flight) and to the back of the FIFO
queue otherwise. A completion delivers exactly one WorkResult for the
finished id, frees its replica, and immediately dispatches the head of the
queue if the queue is non-empty. Shutdown stops accepting submissions and
fails every still-queued request with a shutdown Failure; in-flight
requests keep running and complete normally afterwards. -/
def PoolState.step (s : PoolState) : PoolEvent → PoolState
  | .submit id =>
    if s.shuttingDown then s
    else if s.processing.length < s.poolSize then
      { s with processing := s.processing ++ [id], accepted := s.accepted ++ [id] }
    else
      { s with pending := s.pending ++ [id], accepted := s.accepted ++ [id] }
  | .complete id ok =>
    if id ∈ s.processing then
      match s.pending with
      | [] =>
        { s with processing := s.processing.erase id,
                 delivered := s.delivered ++ [(id, ok)] }
      | next :: rest =>
        { s with processing := s.processing.erase id ++ [next],
                 pending := rest,
                 delivered := s.delivered ++ [(id, ok)] }
    else s
  | .shutdown =>
    { s with shuttingDown := true,
             pending := [],
             delivered := s.delivered ++ s.pending.map (fun id => (id, false)) }

/-- Runs the dispatcher from a state through a sequence of events. -/
def PoolState.run (s : PoolState) : List PoolEvent → PoolState
  | [] => s
  | e :: es => (s.step e).run es

/-- Modelled from the spec: after shutdown, in-flight work is allowed to
finish; `drain` completes the remaining in-flight requests one at a time
(each completion delivering its WorkResult), with enough fuel to empty the
pool. -/
def PoolState.drain : Nat → PoolState → PoolState
  | 0, s => s
  | fuel + 1, s =>
    match s.processing with
    | [] => s
    | id :: _ => PoolState.drain fuel (s.step (.complete id true))

/-- The complete life of a pool of size `n`: the submitted and completed
events happen, then shutdown begins, then the still-in-flight requests
finish. -/
def PoolState.lifecycle (n : Nat) (events : List PoolEvent) : PoolState :=
  let s := (PoolState.init n).run events
  let t := s.step .shutdown
  PoolState.drain t.processing.length t

/-- The ids submitted in an event sequence, in order. -/
def submittedIds : List PoolEvent → List Nat
  | [] => []
  | .submit id :: es => id :: submittedIds es
  | _ :: es => submittedIds es

theorem PoolState.step_poolSize (s : PoolState) (e : PoolEvent) :
    (s.step e).poolSize = s.poolSize := by
  cases e with
  | submit id =>
    simp only [PoolState.step]
    split
    · rfl
    · split <;> rfl
  | complete id ok =>
    simp only [PoolState.step]
    split
    · split <;> rfl
    · rfl
  | shutdown => rfl

theorem PoolState.step_processing_le (s : PoolState) (e : PoolEvent)
    (h : s.processing.length ≤ s.poolSize) :
    (s.step e).processing.length ≤ s.poolSize := by
  cases e with
  | submit id =>
    simp only [PoolState.step]
    split
    · exact h
    · split
      · next hlt => simpa using hlt
      · simpa using h
  | complete id ok =>
    simp only [PoolState.step]
    split
    · next hm =>
      have hl := List.length_erase_add_one hm
      split
      · simp only
        omega
      · simp only [List.length_append, List.length_cons, List.length_nil]
        omega
    · exact h
  | shutdown => simpa using h

theorem PoolState.run_poolSize (events : List PoolEvent) (s : PoolState) :
    (s.run events).poolSize = s.poolSize := by
  induction events generalizing s with
  | nil => rfl
  | cons e es ih =>
    simp only [PoolState.run]
    rw [ih, PoolState.step_poolSize]

theorem PoolState.run_processing_le (events : List PoolEvent) (s : PoolState)
    (h : s.processing.length ≤ s.poolSize) :
    (s.run events).processing.length ≤ s.poolSize := by
  induction events generalizing s with
  | nil => exact h
  | cons e es ih =>
    simp only [PoolState.run]
    have h2 : (s.step e).processing.length ≤ (s.step e).poolSize := by
      rw [PoolState.step_poolSize]
      exact PoolState.step_processing_le s e h
    have h3 := ih (s.step e) h2
    rwa [PoolState.step_poolSize] at h3

/-- Claim C1: for every pool size N ≥ 1 and every sequence of submissions
and completions (hence every number M of submitted requests), the
dispatcher never has more than N WorkRequests in Processing state:
a submission finding all N replicas busy goes to the pending queue
instead. -/
theorem pool_never_exceeds_size (n : Nat) (events : List PoolEvent)
    (h : 1 ≤ n) :
    (((PoolState.init n)).run events).processing.length ≤ n := by
  have h0 : (PoolState.init n).processing.length ≤ (PoolState.init n).poolSize := by
    simp [PoolState.init]
  exact PoolState.run_processing_le events (PoolState.init n) h0

/-- Concrete check of the pool-size bound: a pool of size 1 receiving three
submissions keeps exactly one request in flight. -/
theorem pool_never_exceeds_size_witness :
    1 ≤ 1 ∧ (((PoolState.init 1)).run
      [PoolEvent.submit 0, PoolEvent.submit 1, PoolEvent.submit 2]).processing.length ≤ 1 :=
  ⟨Nat.le_refl 1, pool_never_exceeds_size 1
    [PoolEvent.submit 0, PoolEvent.submit 1, PoolEvent.submit 2] (Nat.le_refl 1)⟩

/-- Accounting invariant of the dispatcher: every accepted WorkRequest is,
at any instant, in exactly one of the states delivered / processing /
pending (counted with multiplicity by request id). -/
def PoolState.Balanced (s : PoolState) : Prop :=
  ∀ x, s.accepted.count x =
    (s.delivered.map Prod.fst).count x + s.processing.count x + s.pending.count x

theorem PoolState.init_balanced (n : Nat) : (PoolState.init n).Balanced := by
  intro x
  simp [PoolState.init]

theorem PoolState.step_balanced (s : PoolState) (e : PoolEvent)
    (h : s.Balanced) : (s.step e).Balanced := by
  intro x
  have hx := h x
  cases e with
  | submit id =>
    simp only [PoolState.step]
    split
    · exact hx
    · split <;>
      · simp only [List.count_append]
        omega
  | complete id ok =>
    simp only [PoolState.step]
    split
    · next hm =>
      have hpos : 0 < List.count id s.processing := List.count_pos_iff.mpr hm
      split
      · next hp =>
        simp only [List.map_append, List.count_append, List.map_cons, List.map_nil]
        rcases eq_or_ne x id with hxe | hxe
        · subst hxe
          rw [List.count_erase_self, List.count_singleton_self]
          omega
        · rw [List.count_erase_of_ne hxe, List.count_cons_of_ne hxe, List.count_nil]
          omega
      · next q rest hp =>
        rw [hp, show q :: rest = [q] ++ rest from rfl, List.count_append] at hx
        simp only [List.map_append, List.count_append, List.map_cons, List.map_nil]
        rcases eq_or_ne x id with hxe | hxe
        · subst hxe
          rw [List.count_erase_self, List.count_singleton_self]
          omega
        · rw [List.count_erase_of_ne hxe, List.count_cons_of_ne hxe, List.count_nil]
          omega
    · exact hx
  | shutdown =>
    simp only [PoolState.step, List.map_append, List.count_append]
    have hmap : List.map Prod.fst (s.pending.map (fun id => (id, false))) = s.pending := by
      rw [List.map_map]
      exact List.map_id s.pending
    rw [hmap]
    simp only [List.count_nil]
    omega

theorem PoolState.run_balanced (events : List PoolEvent) (s : PoolState)
    (h : s.Balanced) : (s.run events).Balanced := by
  induction events generalizing s with
  | nil => exact h
  | cons e es ih => exact ih (s.step e) (s.step_balanced e h)

theorem PoolState.drain_balanced (fuel : Nat) (s : PoolState)
    (h : s.Balanced) : (PoolState.drain fuel s).Balanced := by
  induction fuel generalizing s with
  | zero => exact h
  | succ n ih =>
    simp only [PoolState.drain]
    split
    · exact h
    · exact ih _ (s.step_balanced _ h)

theorem PoolState.step_complete_accepted (s : PoolState) (id : Nat) (ok : Bool) :
    (s.step (.complete id ok)).accepted = s.accepted := by
  simp only [PoolState.step]
  split
  · split <;> rfl
  · rfl

theorem PoolState.drain_accepted (fuel : Nat) (s : PoolState) :
    (PoolState.drain fuel s).accepted = s.accepted := by
  induction fuel generalizing s with
  | zero => rfl
  | succ n ih =>
    simp only [PoolState.drain]
    split
    · rfl
    · rw [ih, PoolState.step_complete_accepted]

theorem PoolState.step_complete_pending_nil (s : PoolState) (id : Nat) (ok : Bool)
    (h : s.pending = []) : (s.step (.complete id ok)).pending = [] := by
  simp only [PoolState.step]
  split
  · split
    · exact h
    · next q rest hp =>
      rw [h] at hp
      exact absurd hp (List.noConfusion)
  · exact h

theorem PoolState.drain_empties (fuel : Nat) (s : PoolState)
    (hp : s.pending = []) (hf : s.processing.length = fuel) :
    (PoolState.drain fuel s).processing = [] ∧
      (PoolState.drain fuel s).pending = [] := by
  induction fuel generalizing s with
  | zero =>
    exact ⟨List.eq_nil_of_length_eq_zero hf, hp⟩
  | succ n ih =>
    simp only [PoolState.drain]
    split
    · next hnil => exact ⟨hnil, hp⟩
    · next id rest hcons =>
      apply ih
      · exact s.step_complete_pending_nil id true hp
      · simp only [PoolState.step, hp]
        rw [if_pos (by rw [hcons]; exact List.mem_cons_self id rest)]
        simp only [hcons, List.erase_cons_head]
        rw [hcons] at hf
        simpa using hf

theorem PoolState.run_accepted_sublist (events : List PoolEvent) (s : PoolState) :
    List.Sublist ((s.run events).accepted) (s.accepted ++ submittedIds events) := by
  induction events generalizing s with
  | nil =>
    simp only [submittedIds, List.append_nil]
    exact List.Sublist.refl _
  | cons e es ih =>
    simp only [PoolState.run]
    have h1 := ih (s.step e)
    cases e with
    | submit id =>
      by_cases hsd : s.shuttingDown
      · have hstep : s.step (.submit id) = s := by
          simp [PoolState.step, hsd]
        rw [hstep] at h1 ⊢
        simp only [submittedIds]
        exact h1.trans (List.Sublist.append_left (List.sublist_cons_self id _) s.accepted)
      · have hstep : (s.step (.submit id)).accepted = s.accepted ++ [id] := by
          by_cases hlt : s.processing.length < s.poolSize <;>
            simp [PoolState.step, hsd, hlt]
        rw [hstep] at h1
        simp only [submittedIds]
        rw [List.append_assoc] at h1
        simpa using h1
    | complete id ok =>
      rw [s.step_complete_accepted id ok] at h1
      simp only [submittedIds]
      exact h1
    | shutdown =>
      have hstep : (s.step .shutdown).accepted = s.accepted := rfl
      rw [hstep] at h1
      simp only [submittedIds]
      exact h1

theorem PoolState.run_accepted_nodup (n : Nat) (events : List PoolEvent)
    (h : (submittedIds events).Nodup) :
    ((PoolState.init n).run events).accepted.Nodup := by
  have hs := PoolState.run_accepted_sublist events (PoolState.init n)
  simp only [PoolState.init, List.nil_append] at hs
  exact hs.nodup h

theorem PoolState.lifecycle_accepted (n : Nat) (events : List PoolEvent) :
    (PoolState.lifecycle n events).accepted =
      ((PoolState.init n).run events).accepted := by
  simp only [PoolState.lifecycle]
  rw [PoolState.drain_accepted]
  rfl

theorem PoolState.lifecycle_empties (n : Nat) (events : List PoolEvent) :
    (PoolState.lifecycle n events).processing = [] ∧
      (PoolState.lifecycle n events).pending = [] := by
  simp only [PoolState.lifecycle]
  exact PoolState.drain_empties _ _ rfl rfl

/-- Claim C2: every WorkRequest accepted before shutdown begins receives
exactly one WorkResult (Success or Failure): over a full pool lifecycle —
any interleaving of submissions and completions with pairwise-distinct
request ids, then shutdown, then completion of the in-flight work — each
accepted request id appears exactly once among the delivered results, so no
accepted request is dropped or answered twice. -/
theorem pool_exactly_one_result (n : Nat) (events : List PoolEvent)
    (hnodup : (submittedIds events).Nodup) :
    ∀ id ∈ (PoolState.lifecycle n events).accepted,
      List.count id (List.map Prod.fst (PoolState.lifecycle n events).delivered) = 1 := by
  intro id hid
  have hbal : (PoolState.lifecycle n events).Balanced := by
    simp only [PoolState.lifecycle]
    exact PoolState.drain_balanced _ _
      (PoolState.step_balanced _ _
        (PoolState.run_balanced events _ (PoolState.init_balanced n)))
  have hemp := PoolState.lifecycle_empties n events
  have hacc := PoolState.lifecycle_accepted n events
  have hx := hbal id
  rw [hemp.1, hemp.2] at hx
  simp only [List.count_nil] at hx
  have hnod := PoolState.run_accepted_nodup n events hnodup
  rw [hacc] at hid hx
  have h1 : List.count id (((PoolState.init n).run events).accepted) = 1 :=
    List.count_eq_one_of_mem hnod hid
  omega

/-- Concrete check of exactly-once delivery: a pool of size 1 accepts three
requests (the third still queued at shutdown, so it is failed rather than
dropped; the first completes with Failure mid-run), and each accepted id is
answered exactly once. -/
theorem pool_exactly_one_result_witness :
    (submittedIds [PoolEvent.submit 0, PoolEvent.submit 1, PoolEvent.submit 2,
        PoolEvent.complete 0 false]).Nodup ∧
    2 ∈ (PoolState.lifecycle 1 [PoolEvent.submit 0, PoolEvent.submit 1,
        PoolEvent.submit 2, PoolEvent.complete 0 false]).accepted ∧
    List.count 2 (List.map Prod.fst (PoolState.lifecycle 1 [PoolEvent.submit 0,
        PoolEvent.submit 1, PoolEvent.submit 2,
        PoolEvent.complete 0 false]).delivered) = 1 :=
  ⟨by decide, by decide,
    pool_exactly_one_result 1 [PoolEvent.submit 0, PoolEvent.submit 1,
      PoolEvent.submit 2, PoolEvent.complete 0 false] (by decide) 2 (by decide)⟩

/-- Claim C3: a call to the /imagine operation whose prompt parameter is
empty returns a client-fault error (the failed validation assertion of
`APIIngress.generate`) and the replica handle is never invoked for that
request: the list of replica invocations is empty. -/
theorem ingress_empty_prompt_client_fault
    (handle : String → Nat → Except ServeError Image) (prompt : String)
    (img_size : Nat) (h : prompt.length = 0) :
    (∃ e, (APIIngress.generate handle prompt img_size).1 = .error e ∧
        e.isClientFault = true) ∧
    (APIIngress.generate handle prompt img_size).2 = [] := by
  refine ⟨⟨.assertionError "prompt parameter cannot be empty", ?_, rfl⟩, ?_⟩ <;>
    simp [APIIngress.generate, h]

/-- Concrete check: the empty prompt is rejected with a client fault and
the replica handle is never called. -/
theorem ingress_empty_prompt_client_fault_witness :
    "".length = 0 ∧
    ((∃ e, (APIIngress.generate sdHandle "" 776).1 = .error e ∧
        e.isClientFault = true) ∧
      (APIIngress.generate sdHandle "" 776).2 = []) :=
  ⟨rfl, ingress_empty_prompt_client_fault sdHandle "" 776 rfl⟩

/-- Claim C4 fails on the code: `APIIngress.generate` performs no range
check on `img_size`. At the concrete input prompt "cat" and the
out-of-range size 0 (non-positive, hence outside any documented positive
range), the call is not rejected with a client error — it succeeds — and
the size is forwarded to the replica, which is invoked with size 0. -/
theorem ingress_no_size_validation_counterexample :
    (APIIngress.generate sdHandle "cat" 0).2 = [⟨"cat", 0⟩] ∧
    ∃ r, (APIIngress.generate sdHandle "cat" 0).1 = .ok r := by
  constructor
  · rfl
  · exact ⟨⟨pngEncode (pipeRun "cat" 0 0), "image/png"⟩, rfl⟩

/-- Claim C4 amended: the Ingress Endpoint applies no range constraint to
the size parameter — for every non-empty prompt and every img_size value
whatsoever (including non-positive ones), the call is forwarded to the
Worker Replica with exactly the caller-supplied size. -/
theorem ingress_forwards_any_size
    (handle : String → Nat → Except ServeError Image) (prompt : String)
    (img_size : Nat) (h : prompt.length ≠ 0) :
    (APIIngress.generate handle prompt img_size).2 = [⟨prompt, img_size⟩] := by
  simp only [APIIngress.generate, if_neg h]
  cases handle prompt img_size <;> rfl

/-- Concrete check: an enormous size is forwarded untouched. -/
theorem ingress_forwards_any_size_witness :
    "cat".length ≠ 0 ∧
    (APIIngress.generate sdHandle "cat" 99999).2 = [⟨"cat", 99999⟩] :=
  ⟨by decide, ingress_forwards_any_size sdHandle "cat" 99999 (by decide)⟩

/-- The unit of work of the data model (spec section 3): an opaque id, the
payload (the text prompt) and the size parameter. -/
structure WorkRequest where
  id : Nat
  payload : String
  img_size : Nat
  deriving Repr, DecidableEq

/-- Outcome status of a WorkResult. -/
inductive WorkStatus where
  | Success
  | Failure
  deriving Repr, DecidableEq

/-- The outcome of a WorkRequest (spec section 3): the id it answers, its
status, the output bytes on Success and the error descriptor on Failure. -/
structure WorkResult where
  request_id : Nat
  status : WorkStatus
  value : Option (List Nat)
  error : Option String
  deriving Repr, DecidableEq

/-- Modelled from the spec for the wrapper (the Ray Serve replica actor,
part of this repository but not among the provided source files): an
exception raised inside the replica method is captured and handed back to
the caller as a Failure WorkResult carrying the error message, instead of
terminating the serving process. The body run inside the wrapper is the
source method `StableDiffusionV2.generate`; a Success result carries the
PNG bytes of the generated image. -/
def replicaProcess (req : WorkRequest) : WorkResult :=
  match StableDiffusionV2.generate req.payload req.img_size with
  | .error (.assertionError msg) =>
    { request_id := req.id, status := .Failure, value := none, error := some msg }
  | .error .shutdownError =>
    { request_id := req.id, status := .Failure, value := none,
      error := some "pool shutting down" }
  | .ok img =>
    { request_id := req.id, status := .Success,
      value := some (pngEncode img), error := none }

/-- Claim C5: processing a WorkRequest always terminates with a WorkResult
for the caller — Success, or a Failure carrying a non-empty descriptive
error — and never escapes as an exception that could end the serving
process; in particular an empty payload is rejected with the validation
error of the source assertion, not processed. -/
theorem replica_failure_returns_result (req : WorkRequest) :
    ((replicaProcess req).status = WorkStatus.Success ∨
      ((replicaProcess req).status = WorkStatus.Failure ∧
        ∃ msg, (replicaProcess req).error = some msg ∧ msg.length ≠ 0)) ∧
    (req.payload.length = 0 →
      (replicaProcess req).status = WorkStatus.Failure ∧
      (replicaProcess req).error = some "prompt parameter cannot be empty") := by
  by_cases h : req.payload.length = 0
  · refine ⟨Or.inr ⟨?_, "prompt parameter cannot be empty", ?_, by decide⟩, fun _ => ⟨?_, ?_⟩⟩ <;>
      simp [replicaProcess, StableDiffusionV2.generate, h]
  · refine ⟨Or.inl ?_, fun hc => absurd hc h⟩
    simp [replicaProcess, StableDiffusionV2.generate, h]

/-- Concrete check: the empty payload yields a Failure WorkResult carrying
the validation message. -/
theorem replica_failure_returns_result_witness :
    (replicaProcess ⟨0, "", 776⟩).status = WorkStatus.Failure ∧
    (replicaProcess ⟨0, "", 776⟩).error = some "prompt parameter cannot be empty" :=
  (replica_failure_returns_result ⟨0, "", 776⟩).2 rfl

/-- Claim C6: for count ≥ 1 the fan-out creates exactly count request
handles before collecting, collects exactly count outputs, and the i-th
output is exactly the endpoint response to the i-th issued request (here
every issued request carries the prompt and IMAGE_SIZE). -/
theorem fanout_ordered_outputs (endpoint : HttpRequest → HttpResponse)
    (prompt : String) (count : Nat) (h : 1 ≤ count) :
    (fanOutRequests prompt count).length = count ∧
    (fanOut endpoint prompt count).length = count ∧
    ∀ i, i < count →
      (fanOutRequests prompt count)[i]? = some ⟨prompt, IMAGE_SIZE⟩ ∧
      (fanOut endpoint prompt count)[i]? =
        some (generate_image endpoint ⟨prompt, IMAGE_SIZE⟩) := by
  refine ⟨by simp [fanOutRequests], by simp [fanOut, fanOutRequests], ?_⟩
  intro i hi
  constructor <;>
    simp [fanOutRequests, fanOut, List.getElem?_map, List.getElem?_range, hi]

/-- Concrete check: a fan-out of two requests returns two outputs. -/
theorem fanout_ordered_outputs_witness :
    (fanOut (fun r => ⟨[r.img_size], "image/png"⟩) "cat" 2).length = 2 :=
  (fanout_ordered_outputs (fun r => ⟨[r.img_size], "image/png"⟩) "cat" 2
    (by decide)).2.1

/-- Claim C7: a fan-out invocation with count = 0 creates no request handle
at all — so neither the Ingress Endpoint nor the Dispatcher behind it is
contacted — and returns the empty sequence of outputs; being a total
function, it completes without error. -/
theorem fanout_zero_no_requests (endpoint : HttpRequest → HttpResponse)
    (prompt : String) :
    fanOutRequests prompt 0 = [] ∧ fanOut endpoint prompt 0 = [] :=
  ⟨rfl, rfl⟩

/-- Claim C8 fails on the code: in a batch whose issue-and-wait phase takes
2 clock ticks and whose file-writing phase takes 3 more, the recorded
measurement is 5, not the 2 that an interval ending at the retrieval of the
last result would give — `elapsed = time.time() - start` runs only after
the images are written to disk. -/
theorem batch_timing_counterexample :
    (runBatch 0 ⟨2, 3⟩ []).1.elapsed ≠
      (runBatch 0 ⟨2, 3⟩ []).1.lastResultClock -
        (runBatch 0 ⟨2, 3⟩ []).1.startClock := by
  decide

/-- Claim C8 amended: the client records exactly one elapsed-time
measurement per batch — a single value appended to generation_times — whose
interval starts at the issuance of the requests and ends only after the
retrieved results have been written to disk: it exceeds the
issuance-to-last-result span by exactly the file-writing time. -/
theorem batch_timing_single_measurement (clock : Nat) (t : BatchTimes)
    (gts : List Nat) :
    (runBatch clock t gts).2 = gts ++ [(runBatch clock t gts).1.elapsed] ∧
    (runBatch clock t gts).1.elapsed =
      ((runBatch clock t gts).1.lastResultClock -
        (runBatch clock t gts).1.startClock) + t.write ∧
    (runBatch clock t gts).1.endClock =
      (runBatch clock t gts).1.lastResultClock + t.write := by
  refine ⟨rfl, ?_, rfl⟩
  simp only [runBatch]
  omega

/-- Claim C9: whenever the replica handle returns an image for a non-empty
prompt, the ingress response carries exactly the binary PNG encoding of
that image as its body, with media type image/png. -/
theorem ingress_success_png (handle : String → Nat → Except ServeError Image)
    (prompt : String) (img_size : Nat) (img : Image)
    (hp : prompt.length ≠ 0) (hh : handle prompt img_size = .ok img) :
    (APIIngress.generate handle prompt img_size).1 =
      .ok ⟨pngEncode img, "image/png"⟩ := by
  simp [APIIngress.generate, hp, hh]

/-- Concrete check: a successful call answers with the PNG bytes of the
replica's image and media type image/png. -/
theorem ingress_success_png_witness :
    (APIIngress.generate sdHandle "cat" 8).1 =
      .ok ⟨pngEncode (pipeRun "cat" 8 8), "image/png"⟩ :=
  ingress_success_png sdHandle "cat" 8 (pipeRun "cat" 8 8) (by decide) rfl

/-- Claim C10: for every non-empty prompt the ingress forwards the
caller-supplied img_size unchanged to the replica (the single replica
invocation carries exactly that size); the replica calls the pipeline with
height = width = img_size, so the generated image is square with side
img_size; and a caller omitting the parameter gets the default 776 at both
the ingress and the replica. -/
theorem ingress_forwards_size_square (prompt : String) (img_size : Nat)
    (h : prompt.length ≠ 0) :
    (APIIngress.generate sdHandle prompt img_size).2 = [⟨prompt, img_size⟩] ∧
    (∃ img, StableDiffusionV2.generate prompt img_size = .ok img ∧
      img.height = img_size ∧ img.width = img_size ∧
      (APIIngress.generate sdHandle prompt img_size).1 =
        .ok ⟨pngEncode img, "image/png"⟩) ∧
    (∀ q : String, APIIngress.generate sdHandle q = APIIngress.generate sdHandle q 776) ∧
    (∀ q : String, StableDiffusionV2.generate q = StableDiffusionV2.generate q 776) := by
  refine ⟨?_, ⟨pipeRun prompt img_size img_size, ?_, rfl, rfl, ?_⟩,
    fun q => rfl, fun q => rfl⟩ <;>
    simp [APIIngress.generate, sdHandle, StableDiffusionV2.generate, h, pipeRun]

/-- Concrete check: size 123 reaches the replica unchanged and the
resulting image is 123 by 123. -/
theorem ingress_forwards_size_square_witness :
    (APIIngress.generate sdHandle "dog" 123).2 = [⟨"dog", 123⟩] :=
  (ingress_forwards_size_square "dog" 123 (by decide)).1
